import Mathlib

/-!
Verification of the business-card extraction pipeline (`app.py`).

The development shallowly embeds the core of the program:

* `clean_json_string`  — the payload-repair heuristic (control-character strip,
  brace slicing, whitespace normalisation);
* `json_loads`         — a model of Python's strict `json.loads` (values carry
  number literals verbatim; decoder error positions are abstracted away,
  only the leading error word is kept);
* `json_dumps_email`   — a model of `json.dumps` applied to a single-field
  mapping `x = \x7b"email": v\x7d` (default separators, `ensure_ascii=True`);
* `extract_loop_fuel` / `extract_business_card_info` — the bounded retry loop,
  with the remote Bedrock call abstracted as a function from the attempt
  index to an outcome (a text reply, or an exception rendered by `str(e)`);
* `display_message`    — the result formatting of `process_image`;
* `resize_dims` / `resize_dims_fp` — the image-resize arithmetic, once with
  exact real arithmetic and once with round-to-nearest-even binary64
  arithmetic encoded as mantissa-exponent pairs.

Machine integers are `Nat`/`Int`; timing (backoff sleeps) and logging are not
modelled.  All definitions are executable.
-/

/-! ### Python-style character and string helpers -/

/-- The characters Python's `str.split()` treats as whitespace
(the ASCII ones; the program only ever meets these). -/
def pyIsSpace (c : Char) : Bool :=
  c == ' ' || c == '\t' || c == '\n' || c == '\r' || c == '\x0b' || c == '\x0c'

/-- JSON whitespace, as skipped by Python's `json` scanner. -/
def jsonWs (c : Char) : Bool :=
  c == ' ' || c == '\t' || c == '\n' || c == '\r'

/-- `startsWith pat l` : `pat` is an initial segment of `l`. -/
def startsWith : List Char → List Char → Bool
  | [], _ => true
  | _ :: _, [] => false
  | a :: as, b :: bs => a == b && startsWith as bs

/-- `hasSub needle hay` : `needle` occurs contiguously in `hay`
(Python's `needle in hay` on strings). -/
def hasSub (needle : List Char) : List Char → Bool
  | [] => startsWith needle []
  | c :: t => startsWith needle (c :: t) || hasSub needle t

/-- Python's `needle in hay` for strings. -/
def pyInStr (needle hay : String) : Bool :=
  hasSub needle.data hay.data

/-- Index of the first occurrence of `c` (Python `str.find`, with `-1`
rendered as `none`). -/
def findIdx : List Char → Char → Option Nat
  | [], _ => none
  | a :: t, c => if a == c then some 0 else (findIdx t c).map (· + 1)

/-- Index of the last occurrence of `c` (Python `str.rfind`, with `-1`
rendered as `none`). -/
def rfindIdx (l : List Char) (c : Char) : Option Nat :=
  (findIdx l.reverse c).map (fun i => l.length - 1 - i)

/-- Line 56 of the source: keep characters with code point `≥ 32` and the
three whitespace characters `\n`, `\r`, `\t`. -/
def stripCtl (l : List Char) : List Char :=
  l.filter (fun c => 32 ≤ c.toNat || c == '\n' || c == '\r' || c == '\t')

/-- No two adjacent characters of the list both satisfy `p`. -/
def noTwoAdj (p : Char → Bool) : List Char → Bool
  | [] => true
  | [_] => true
  | a :: b :: t => !(p a && p b) && noTwoAdj p (b :: t)

/-- The head (if any) satisfies `p`. -/
def headP (p : Char → Bool) : List Char → Bool
  | [] => false
  | c :: _ => p c

/-- The last element (if any) does not satisfy `p`. -/
def lastNotP (p : Char → Bool) : List Char → Bool
  | [] => true
  | [a] => !p a
  | _ :: b :: t => lastNotP p (b :: t)

/-- Every whitespace character of the list is a plain space. -/
def wsOnlySpace (l : List Char) : Bool :=
  l.all (fun c => !pyIsSpace c || c == ' ')

/-! ### `' '.join(s.split())` -/

/-- Close the word being accumulated (empty words are discarded,
as `str.split()` drops empty fields). -/
def pushWord (w : List Char) (ws : List (List Char)) : List (List Char) :=
  if w.isEmpty then ws else w :: ws

/-- Right fold computing `(current word, later words)` for `str.split()`. -/
def wordsAux : List Char → List Char × List (List Char)
  | [] => ([], [])
  | c :: t =>
    let p := wordsAux t
    if pyIsSpace c then ([], pushWord p.1 p.2) else (c :: p.1, p.2)

/-- Python `s.split()`: maximal whitespace-free runs. -/
def pySplit (l : List Char) : List (List Char) :=
  pushWord (wordsAux l).1 (wordsAux l).2

/-- Python `' '.join(ws)`. -/
def sjoin : List (List Char) → List Char
  | [] => []
  | [w] => w
  | w :: ws => w ++ ' ' :: sjoin ws

/-! ### `clean_json_string` (source lines 42–71) -/

/-- The message of the `ValueError` raised at line 62. -/
def noJsonMsg : String := "No valid JSON object found in string"

/-- Faithful model of `clean_json_string`: strip control characters, slice
from the first `\x7b` to the last `\x7d` (raising iff either is absent),
replace `\n`/`\r` by spaces, collapse whitespace runs. -/
def clean_json_string (s : String) : Except String String :=
  let clean := stripCtl s.data
  match findIdx clean '\x7b', rfindIdx clean '\x7d' with
  | some st, some en =>
    let json1 := (clean.drop st).take (en + 1 - st)
    let json2 := json1.map (fun c => if c == '\n' || c == '\r' then ' ' else c)
    Except.ok (String.mk (sjoin (pySplit json2)))
  | _, _ => Except.error noJsonMsg

/-! ### JSON values and a model of Python's `json.loads` -/

/-- JSON values as produced by `json.loads`.  Number literals are kept
verbatim (the claims never inspect numeric magnitudes), objects keep
Python-`dict` insertion order with last-duplicate-wins updates. -/
inductive JVal where
  | jnull
  | jbool (b : Bool)
  | jnum (lit : String)
  | jstr (s : String)
  | jarr (elems : List JVal)
  | jobj (fields : List (String × JVal))
  deriving Repr

/-- Python `dict` insert: replace in place if the key exists, else append. -/
def dictInsert (acc : List (String × JVal)) (k : String) (v : JVal) :
    List (String × JVal) :=
  match acc with
  | [] => [(k, v)]
  | (k', v') :: t => if k' == k then (k, v) :: t else (k', v') :: dictInsert t k v

/-- Python `dict` lookup (`d.get(k)`), generic in the value type. -/
def pyGet {α : Type} : List (String × α) → String → Option α
  | [], _ => none
  | (k, v) :: t, key => if k == key then some v else pyGet t key

/-- Value of one hexadecimal digit. -/
def hexVal (c : Char) : Option Nat :=
  if '0' ≤ c ∧ c ≤ '9' then some (c.toNat - 48)
  else if 'a' ≤ c ∧ c ≤ 'f' then some (c.toNat - 87)
  else if 'A' ≤ c ∧ c ≤ 'F' then some (c.toNat - 55)
  else none

/-- Four hexadecimal digits, as after `\u` in a JSON string literal. -/
def parseHex4 : List Char → Option (Nat × List Char)
  | a :: b :: c :: d :: t =>
    match hexVal a, hexVal b, hexVal c, hexVal d with
    | some x, some y, some z, some w => some (((x * 16 + y) * 16 + z) * 16 + w, t)
    | _, _, _, _ => none
  | _ => none

/-- Skip JSON whitespace. -/
def skipWs : List Char → List Char
  | [] => []
  | c :: t => if jsonWs c then skipWs t else c :: t

/-- Cons a decoded character onto the pending string-body result. -/
def mapCons (c : Char) (o : Option (List Char × List Char)) :
    Option (List Char × List Char) :=
  o.map (fun p => (c :: p.1, p.2))

/-- Body of a JSON string literal, after the opening quote; returns the
decoded characters and the input after the closing quote.  Mirrors Python's
strict `scanstring`: raw control characters are rejected, `\uXXXX` escapes
are decoded with surrogate-pair combination (a lone surrogate, which a Lean
`Char` cannot carry, degrades to `Char.ofNat`'s default — unreachable for
every input this development evaluates).  `fuel` bounds the recursion; one
unit is spent per decoded character, so `input length + 1` always suffices. -/
def parseStrBody : Nat → List Char → Option (List Char × List Char)
  | 0, _ => none
  | _ + 1, [] => none
  | f + 1, c :: t =>
    if c == '"' then some ([], t)
    else if c == '\\' then
      match t with
      | [] => none
      | e :: t2 =>
        if e == '"' then mapCons '"' (parseStrBody f t2)
        else if e == '\\' then mapCons '\\' (parseStrBody f t2)
        else if e == '/' then mapCons '/' (parseStrBody f t2)
        else if e == 'b' then mapCons '\x08' (parseStrBody f t2)
        else if e == 'f' then mapCons '\x0c' (parseStrBody f t2)
        else if e == 'n' then mapCons '\n' (parseStrBody f t2)
        else if e == 'r' then mapCons '\r' (parseStrBody f t2)
        else if e == 't' then mapCons '\t' (parseStrBody f t2)
        else if e == 'u' then
          match parseHex4 t2 with
          | none => none
          | some (n, t3) =>
            if 55296 ≤ n ∧ n ≤ 56319 then
              match t3 with
              | b1 :: b2 :: t4 =>
                if b1 == '\\' && b2 == 'u' then
                  match parseHex4 t4 with
                  | some (m, t5) =>
                    if 56320 ≤ m ∧ m ≤ 57343 then
                      mapCons (Char.ofNat (65536 + (n - 55296) * 1024 + (m - 56320)))
                        (parseStrBody f t5)
                    else mapCons (Char.ofNat n) (parseStrBody f t3)
                  | none => mapCons (Char.ofNat n) (parseStrBody f t3)
                else mapCons (Char.ofNat n) (parseStrBody f t3)
              | _ => mapCons (Char.ofNat n) (parseStrBody f t3)
            else mapCons (Char.ofNat n) (parseStrBody f t3)
        else none
    else if c.toNat < 32 then none
    else mapCons c (parseStrBody f t)

/-- Optional fraction part `(\.\d+)?` of the JSON number grammar;
returns the consumed literal characters and the rest. -/
def optFrac (l : List Char) : List Char × List Char :=
  match l with
  | '.' :: t =>
    let ds := t.takeWhile (fun c => c.isDigit)
    if ds.isEmpty then ([], l) else ('.' :: ds, t.dropWhile (fun c => c.isDigit))
  | _ => ([], l)

/-- Optional exponent part `([eE][-+]?\d+)?` of the JSON number grammar. -/
def optExp (l : List Char) : List Char × List Char :=
  match l with
  | [] => ([], l)
  | c :: t =>
    if c == 'e' || c == 'E' then
      match t with
      | [] => ([], l)
      | s :: t2 =>
        if s == '+' || s == '-' then
          let ds := t2.takeWhile (fun x => x.isDigit)
          if ds.isEmpty then ([], l)
          else (c :: s :: ds, t2.dropWhile (fun x => x.isDigit))
        else
          let ds := t.takeWhile (fun x => x.isDigit)
          if ds.isEmpty then ([], l)
          else (c :: ds, t.dropWhile (fun x => x.isDigit))
    else ([], l)

/-- JSON number per Python's `NUMBER_RE`: `-?(0|[1-9]\d*)(\.\d+)?([eE][-+]?\d+)?`. -/
def parseNum (l : List Char) : Option (JVal × List Char) :=
  let sn : List Char × List Char :=
    match l with
    | '-' :: t => (['-'], t)
    | _ => ([], l)
  match sn.2 with
  | [] => none
  | c :: t =>
    if c == '0' then
      let fr := optFrac t
      let ex := optExp fr.2
      some (JVal.jnum (String.mk (sn.1 ++ '0' :: (fr.1 ++ ex.1))), ex.2)
    else if c.isDigit then
      let ds := t.takeWhile (fun x => x.isDigit)
      let rest := t.dropWhile (fun x => x.isDigit)
      let fr := optFrac rest
      let ex := optExp fr.2
      some (JVal.jnum (String.mk (sn.1 ++ c :: ds ++ fr.1 ++ ex.1)), ex.2)
    else none

/-- Scalar JSON values: keyword constants (Python also accepts `NaN`,
`Infinity`, `-Infinity` by default) and numbers. -/
def parseScalar (l : List Char) : Option (JVal × List Char) :=
  if startsWith ['t', 'r', 'u', 'e'] l then some (JVal.jbool true, l.drop 4)
  else if startsWith ['f', 'a', 'l', 's', 'e'] l then some (JVal.jbool false, l.drop 5)
  else if startsWith ['n', 'u', 'l', 'l'] l then some (JVal.jnull, l.drop 4)
  else if startsWith ['N', 'a', 'N'] l then some (JVal.jnum "NaN", l.drop 3)
  else if startsWith ['I', 'n', 'f', 'i', 'n', 'i', 't', 'y'] l then
    some (JVal.jnum "Infinity", l.drop 8)
  else if startsWith ['-', 'I', 'n', 'f', 'i', 'n', 'i', 't', 'y'] l then
    some (JVal.jnum "-Infinity", l.drop 9)
  else parseNum l

/-- Members of a JSON object after the opening brace (nonempty case):
`"key" : value` pairs separated by commas, closed by `\x7d`.  The value
parser `pv` is supplied by `parseVal` at one lower nesting fuel; the local
`fuel` (one unit per member) is covered by `input length + 1`. -/
def parseMembersF (pv : List Char → Option (JVal × List Char)) :
    Nat → List Char → List (String × JVal) →
    Option (List (String × JVal) × List Char)
  | 0, _, _ => none
  | f + 1, l, acc =>
    match l with
    | '"' :: t =>
      match parseStrBody (t.length + 1) t with
      | some (k, r1) =>
        match skipWs r1 with
        | ':' :: r2 =>
          match pv r2 with
          | some (v, r3) =>
            match skipWs r3 with
            | ',' :: r4 => parseMembersF pv f (skipWs r4) (dictInsert acc (String.mk k) v)
            | '\x7d' :: r4 => some (dictInsert acc (String.mk k) v, r4)
            | _ => none
          | none => none
        | _ => none
      | none => none
    | _ => none

/-- Elements of a JSON array after the opening bracket (nonempty case). -/
def parseElemsF (pv : List Char → Option (JVal × List Char)) :
    Nat → List Char → List JVal → Option (List JVal × List Char)
  | 0, _, _ => none
  | f + 1, l, acc =>
    match pv l with
    | some (v, r1) =>
      match skipWs r1 with
      | ',' :: r2 => parseElemsF pv f r2 (acc ++ [v])
      | ']' :: r2 => some (acc ++ [v], r2)
      | _ => none
    | none => none

/-- One JSON value, after skipping leading whitespace.  `fuel` bounds the
nesting depth; since each nesting level consumes at least one character,
`input length + 1` always suffices (Python instead overflows its recursion
stack beyond depth ≈1000 — a divergence this development never meets). -/
def parseVal : Nat → List Char → Option (JVal × List Char)
  | 0, _ => none
  | f + 1, l =>
    match skipWs l with
    | [] => none
    | c :: t =>
      if c == '\x7b' then
        match skipWs t with
        | '\x7d' :: r => some (JVal.jobj [], r)
        | t' => (parseMembersF (parseVal f) (t'.length + 1) t' []).map
            (fun p => (JVal.jobj p.1, p.2))
      else if c == '[' then
        match skipWs t with
        | ']' :: r => some (JVal.jarr [], r)
        | t' => (parseElemsF (parseVal f) (t'.length + 1) t' []).map
            (fun p => (JVal.jarr p.1, p.2))
      else if c == '"' then
        (parseStrBody (t.length + 1) t).map (fun p => (JVal.jstr (String.mk p.1), p.2))
      else parseScalar (c :: t)

/-- Model of Python `json.loads`: one value, then only trailing whitespace.
The two error messages keep only the leading words of the decoder's
diagnostics (`Expecting value: line … column …`, `Extra data: …`); the
program never inspects them beyond embedding `str(e)` into its own text. -/
def json_loads (s : String) : Except String JVal :=
  match parseVal (s.data.length + 1) s.data with
  | some (v, rest) => if skipWs rest = [] then Except.ok v else Except.error "Extra data"
  | none => Except.error "Expecting value"

/-- The Payload Recoverer: `clean_json_string` (raising `ValueError`)
followed by `json.loads` (raising `JSONDecodeError`) — the composition the
inner `try` of the retry loop evaluates, lines 169–170 of the source. -/
def recoverParse (s : String) : Except String JVal :=
  (clean_json_string s).bind json_loads

/-! ### A model of `json.dumps(\x7b"email": v\x7d)` -/

/-- Lowercase hexadecimal digit, as emitted by Python's `json` encoder. -/
def hexDig (n : Nat) : Char :=
  if n < 10 then Char.ofNat (48 + n) else Char.ofNat (87 + n)

/-- The four digits of a `\uXXXX` escape. -/
def uEscDigits (n : Nat) : List Char :=
  [hexDig (n / 4096 % 16), hexDig (n / 256 % 16), hexDig (n / 16 % 16), hexDig (n % 16)]

/-- A full `\uXXXX` escape. -/
def uEsc (n : Nat) : List Char :=
  '\\' :: 'u' :: uEscDigits n

/-- How Python's default (`ensure_ascii=True`) encoder renders one character
inside a string literal: short escapes for `"`, `\`, and the five named
control characters, `\uXXXX` for other control and non-printable-ASCII
characters (a surrogate pair beyond the BMP), the character itself for
printable ASCII. -/
def escChar (c : Char) : List Char :=
  if c == '"' then ['\\', '"']
  else if c == '\\' then ['\\', '\\']
  else if c == '\x08' then ['\\', 'b']
  else if c == '\t' then ['\\', 't']
  else if c == '\n' then ['\\', 'n']
  else if c == '\x0c' then ['\\', 'f']
  else if c == '\r' then ['\\', 'r']
  else if c.toNat < 32 then uEsc c.toNat
  else if c.toNat ≤ 126 then [c]
  else if c.toNat < 65536 then uEsc c.toNat
  else uEsc (55296 + (c.toNat - 65536) / 1024) ++ uEsc (56320 + (c.toNat - 65536) % 1024)

/-- Encoder over a character list. -/
def escList : List Char → List Char
  | [] => []
  | c :: t => escChar c ++ escList t

/-- Characters of `json.dumps` applied to a mapping whose only key is
`"email"` with string value `v` (default separators put one space after the
colon). -/
def dumpsList (v : List Char) : List Char :=
  '\x7b' :: '"' :: 'e' :: 'm' :: 'a' :: 'i' :: 'l' :: '"' :: ':' :: ' ' :: '"' ::
    (escList v ++ ['"', '\x7d'])

/-- `json.dumps(\x7b"email": v\x7d)` as a string. -/
def json_dumps_email (v : String) : String :=
  String.mk (dumpsList v.data)

/-! ### The retry loop of `extract_business_card_info` (lines 79–219) -/

/-- Outcome of one Bedrock `converse` call (including the extraction of
`response["output"]["message"]["content"][0]["text"]`): either the reply
text, or an exception rendered by `str(e)`. -/
inductive BackendResp where
  | reply (text : String)
  | exn (msg : String)

/-- The dictionaries returned by `extract_business_card_info`: a `status`
plus the optional `message`, `data` and `raw_response` keys. -/
structure PyResult where
  status : String
  message : Option String := none
  data : Option (List (String × JVal)) := none
  raw_response : Option String := none

/-- Which `return` statement of the source produced the result. -/
inductive ExitTag where
  | successExit
  | parseFailExit
  | apiErrorExit
  | genericExit
  | unknownModelExit
  deriving Repr, DecidableEq

/-- Result of a run together with the number of backend calls made and the
exit taken. -/
structure RunOut where
  res : PyResult
  calls : Nat
  exit : ExitTag

/-- The `MODEL_IDS` table (lines 37–40). -/
def MODEL_IDS : List (String × String) :=
  [("Nova Lite", "us.amazon.nova-lite-v1:0"),
   ("Claude 3.5 Sonnet V2", "us.anthropic.claude-3-5-sonnet-20241022-v2:0")]

/-- `model_id = MODEL_IDS.get(model_name)` followed by the truthiness test
`if not model_id` (line 107): known iff present with a nonempty identifier. -/
def knownModel (model_name : String) : Bool :=
  match pyGet MODEL_IDS model_name with
  | some mid => !mid.isEmpty
  | none => false

/-- Lines 172–175: `for field in ["email"]: if field not in result:
result[field] = ""` — append an empty-string email if absent. -/
def ensureFields (fields : List (String × JVal)) : List (String × JVal) :=
  if (pyGet fields "email").isSome then fields else fields ++ [("email", JVal.jstr "")]

/-- `str(e)` of the `TypeError` raised by `result[field] = ""` when
`json.loads` returned a non-`dict` — a path that is in fact unreachable,
since the cleaned text always starts with `\x7b`. -/
def typeErrorMsg : String := "TypeError"

/-- One pass of the `while retry_count < max_retries` loop (lines 148–206).
`fuel` is the number of iterations the loop condition still allows, i.e.
`max_retries - retry_count`; the `0` case is the loop condition failing
(lines 209–212).  The branch conditions read `rc`/`maxR` exactly as the
source does; backoff sleeps are timing and are not modelled.  `calls`
counts `bedrock_runtime.converse` invocations. -/
def extract_loop_fuel (backend : Nat → BackendResp) (maxR : Nat) :
    Nat → Nat → RunOut
  | 0, _ =>
    { res := { status := "error",
               message := some ("Failed after " ++ toString maxR ++ " retries") },
      calls := 0, exit := ExitTag.genericExit }
  | f + 1, rc =>
    match backend rc with
    | BackendResp.exn msg =>
      if pyInStr "ThrottlingException" msg && decide (rc < maxR - 1) then
        let r := extract_loop_fuel backend maxR f (rc + 1)
        { r with calls := r.calls + 1 }
      else
        { res := { status := "error", message := some ("API error: " ++ msg) },
          calls := 1, exit := ExitTag.apiErrorExit }
    | BackendResp.reply text =>
      match recoverParse text with
      | Except.ok (JVal.jobj fields) =>
        { res := { status := "success", data := some (ensureFields fields),
                   raw_response := some text },
          calls := 1, exit := ExitTag.successExit }
      | Except.ok _ =>
        -- `result[field] = ""` raises `TypeError`, caught by the
        -- per-iteration `except Exception` like any API error (unreachable:
        -- `json_loads` of a brace-slice can only succeed with an object)
        if pyInStr "ThrottlingException" typeErrorMsg && decide (rc < maxR - 1) then
          let r := extract_loop_fuel backend maxR f (rc + 1)
          { r with calls := r.calls + 1 }
        else
          { res := { status := "error",
                     message := some ("API error: " ++ typeErrorMsg) },
            calls := 1, exit := ExitTag.apiErrorExit }
      | Except.error e =>
        if rc = maxR - 1 then
          { res := { status := "error",
                     message := some ("Failed to parse response as JSON: " ++ e),
                     raw_response := some text },
            calls := 1, exit := ExitTag.parseFailExit }
        else
          let r := extract_loop_fuel backend maxR f (rc + 1)
          { r with calls := r.calls + 1 }

/-- `extract_business_card_info` with the remote call abstracted: resolve
the model name (lines 106–109, zero calls on failure), then run the retry
loop from `retry_count = 0`.  The image, prompt and inference parameters do
not influence the modelled control flow; nothing outside the loop can raise,
so the function-level `except Exception` (lines 214–219) never fires. -/
def extract_business_card_info (backend : Nat → BackendResp)
    (model_name : String) (max_retries : Nat) : RunOut :=
  if knownModel model_name then
    extract_loop_fuel backend max_retries max_retries 0
  else
    { res := { status := "error", message := some ("Unknown model: " ++ model_name) },
      calls := 0, exit := ExitTag.unknownModelExit }

/-! ### Result formatting in `process_image` (lines 249–264) -/

/-- Python truthiness of a decoded JSON value (`if data["email"]:`). -/
def pyTruthy : JVal → Bool
  | JVal.jnull => false
  | JVal.jbool b => b
  | JVal.jstr s => !s.isEmpty
  | JVal.jarr l => !l.isEmpty
  | JVal.jobj l => !l.isEmpty
  | JVal.jnum lit =>
    lit.data.any (fun c => c.isDigit && c != '0') ||
      lit == "NaN" || lit == "Infinity" || lit == "-Infinity"

/-- Python `str()` of a decoded JSON value, as interpolated by the f-string
`f"Email: \x7bdata['email']\x7d"`.  Containers are not rendered (no claim
exercises them). -/
def pyStr : JVal → String
  | JVal.jstr s => s
  | JVal.jnull => "None"
  | JVal.jbool true => "True"
  | JVal.jbool false => "False"
  | JVal.jnum lit => lit
  | JVal.jarr _ => "<list>"
  | JVal.jobj _ => "<dict>"

/-- Python `"\n".join`. -/
def joinNL : List String → String
  | [] => ""
  | [x] => x
  | x :: xs => x ++ "\n" ++ joinNL xs

/-- The success-branch formatting of `process_image`: list each truthy
recognized field as `Email: value`, else the fixed nothing-found message.
`none` models the `KeyError` of `data["email"]` on a payload without the
key (which `extract_business_card_info` never produces). -/
def display_message (data : List (String × JVal)) : Option String :=
  match pyGet data "email" with
  | none => none
  | some v =>
    let message_parts : List String :=
      if pyTruthy v then ["Email: " ++ pyStr v] else []
    some (if message_parts.isEmpty then
            "No information found in the business card image."
          else joinNL message_parts)

/-! ### The resize arithmetic (lines 96–100) -/

/-- `resize_dims w h` : the dimensions `image.resize` receives, with the
source's float expressions `int(w * (1600 / m))` read in exact real
arithmetic: `int` truncates the nonnegative product, so the result is the
floor `w * 1600 / m` in integer division. -/
def resize_dims (w h : Nat) : Nat × Nat :=
  if 1600 < max w h then
    (w * 1600 / max w h, h * 1600 / max w h)
  else (w, h)

/-- Number of binary digits of `n` (auxiliary, fueled; 4200 covers every
quantity this development forms). -/
def nbitsAux : Nat → Nat → Nat
  | 0, _ => 0
  | f + 1, n => if n = 0 then 0 else nbitsAux f (n / 2) + 1

/-- Number of binary digits of `n`. -/
def nbits (n : Nat) : Nat := nbitsAux 4200 n

/-- `pow2le b a e` : `b * 2 ^ e ≤ a` for a signed exponent. -/
def pow2le (b a : Nat) : Int → Bool
  | Int.ofNat n => b * 2 ^ n ≤ a
  | Int.negSucc n => b ≤ a * 2 ^ (n + 1)

/-- Floor of the base-2 logarithm of `a / b` (for `a, b > 0`). -/
def ilog2 (a b : Nat) : Int :=
  let e0 : Int := (nbits a : Int) - (nbits b : Int)
  if pow2le b a e0 then e0 else e0 - 1

/-- Round `a / b` (for `b > 0`) to the nearest integer, ties to even. -/
def rndHE (a b : Nat) : Nat :=
  let q := a / b
  let r := a % b
  if 2 * r < b then q else if b < 2 * r then q + 1
  else if q % 2 = 0 then q else q + 1

/-- IEEE-754 binary64 round-to-nearest-even of the positive rational
`a / b`, as a mantissa–exponent pair `(m, e)` denoting `m * 2 ^ e` with
`2 ^ 52 ≤ m ≤ 2 ^ 53` (overflow and subnormals are outside the magnitudes
the resize arithmetic produces). -/
def flMantExp (a b : Nat) : Nat × Int :=
  let e : Int := ilog2 a b - 52
  let m : Nat :=
    match e with
    | Int.ofNat n => rndHE a (b * 2 ^ n)
    | Int.negSucc n => rndHE (a * 2 ^ (n + 1)) b
  (m, e)

/-- `int(x)` of the nonnegative double `m * 2 ^ e`: floor. -/
def dyFloor (m : Nat) : Int → Nat
  | Int.ofNat n => m * 2 ^ n
  | Int.negSucc n => m / 2 ^ (n + 1)

/-- Double multiplication of the exact integer `w` by the double `(m, e)`:
the exact product `w * m * 2 ^ e` rounded back to binary64. -/
def flMulNat (w : Nat) (me : Nat × Int) : Nat × Int :=
  match me.2 with
  | Int.ofNat n => flMantExp (w * me.1 * 2 ^ n) 1
  | Int.negSucc n => flMantExp (w * me.1) (2 ^ (n + 1))

/-- The resize dimensions as the source actually computes them, with
`ratio = 1600 / max(w, h)` and the two products evaluated in binary64
(`float` in Python) and truncated by `int`. -/
def resize_dims_fp (w h : Nat) : Nat × Nat :=
  if 1600 < max w h then
    let ratio := flMantExp 1600 (max w h)
    let pw := flMulNat w ratio
    let ph := flMulNat h ratio
    (dyFloor pw.1 pw.2, dyFloor ph.1 ph.2)
  else (w, h)

/-! ### A predicate following the spec's words (for claim C3) -/

/-- Follows the spec's words, not the source: the recoverer is said to fail
with `NoJsonFound` iff the stripped text "contains no `\x7b`, contains no
`\x7d`, or the span from the first `\x7b` to the last `\x7d` is empty". -/
def spec_noJsonFound_condition (s : String) : Bool :=
  let clean := stripCtl s.data
  match findIdx clean '\x7b', rfindIdx clean '\x7d' with
  | none, _ => true
  | _, none => true
  | some st, some en => ((clean.drop st).take (en + 1 - st)).isEmpty

/-! ## Lemmas -/

/-! ### Whitespace, words and joining -/

theorem noTwoAdj_tail (p : Char → Bool) (a : Char) (l : List Char)
    (h : noTwoAdj p (a :: l) = true) : noTwoAdj p l = true := by
  cases l with
  | nil => rfl
  | cons b t =>
    simp only [noTwoAdj, Bool.and_eq_true] at h
    exact h.2

theorem noTwoAdj_of_all_not (p : Char → Bool) :
    ∀ l : List Char, (∀ d ∈ l, p d = false) → noTwoAdj p l = true := by
  intro l
  induction l with
  | nil => intro _; rfl
  | cons a t ih =>
    intro h
    cases t with
    | nil => rfl
    | cons b s =>
      simp only [noTwoAdj, Bool.and_eq_true]
      refine ⟨?_, ih ?_⟩
      · simp [h a (by simp)]
      · intro d hd
        exact h d (by simp [hd])

theorem lastNotP_of_all_not (p : Char → Bool) :
    ∀ l : List Char, (∀ d ∈ l, p d = false) → lastNotP p l = true := by
  intro l
  induction l with
  | nil => intro _; rfl
  | cons a t ih =>
    intro h
    cases t with
    | nil => simp [lastNotP, h a (by simp)]
    | cons b s =>
      show lastNotP p (b :: s) = true
      exact ih (fun d hd => h d (by simp [hd]))

theorem lastNotP_cons_cons (p : Char → Bool) (a b : Char) (t : List Char) :
    lastNotP p (a :: b :: t) = lastNotP p (b :: t) := rfl

theorem noTwoAdj_append (p : Char → Bool) :
    ∀ a b : List Char, noTwoAdj p a = true → noTwoAdj p b = true →
      (lastNotP p a = true ∨ headP p b = false) → noTwoAdj p (a ++ b) = true := by
  intro a
  induction a with
  | nil => intro b _ hb _; simpa using hb
  | cons x t ih =>
    intro b ha hb hmid
    cases t with
    | nil =>
      cases b with
      | nil => rfl
      | cons y s =>
        show noTwoAdj p (x :: y :: s) = true
        simp only [noTwoAdj, Bool.and_eq_true]
        refine ⟨?_, hb⟩
        rcases hmid with h | h
        · simp only [lastNotP, Bool.not_eq_true'] at h
          simp [h]
        · simp only [headP] at h
          simp [h]
    | cons x' t' =>
      show noTwoAdj p (x :: x' :: (t' ++ b)) = true
      simp only [noTwoAdj, Bool.and_eq_true] at ha ⊢
      refine ⟨ha.1, ?_⟩
      exact ih b ha.2 hb (by simpa [lastNotP] using hmid)

theorem headP_append (p : Char → Bool) (a b : List Char) (ha : a ≠ []) :
    headP p (a ++ b) = headP p a := by
  cases a with
  | nil => exact absurd rfl ha
  | cons x t => rfl

theorem lastNotP_append_singleton (p : Char → Bool) :
    ∀ (l : List Char) (c : Char), lastNotP p (l ++ [c]) = !p c := by
  intro l
  induction l with
  | nil => intro c; rfl
  | cons a t ih =>
    intro c
    cases t with
    | nil => rfl
    | cons b s =>
      show lastNotP p (b :: (s ++ [c])) = !p c
      exact ih c

theorem sjoin_cons_head (c : Char) (w : List Char) (ws : List (List Char)) :
    sjoin ((c :: w) :: ws) = c :: sjoin (w :: ws) := by
  cases ws with
  | nil => rfl
  | cons y t => rfl

theorem sjoin_nil_cons (ws : List (List Char)) (h : ws ≠ []) :
    sjoin ([] :: ws) = ' ' :: sjoin ws := by
  cases ws with
  | nil => exact absurd rfl h
  | cons y t => rfl

theorem wsOnlySpace_tail (a : Char) (l : List Char)
    (h : wsOnlySpace (a :: l) = true) : wsOnlySpace l = true := by
  simp only [wsOnlySpace, List.all_cons, Bool.and_eq_true] at h
  exact h.2

theorem wordsAux_join : ∀ l : List Char,
    noTwoAdj pyIsSpace l = true → wsOnlySpace l = true →
      lastNotP pyIsSpace l = true →
    ((headP pyIsSpace l = false →
        sjoin (pushWord (wordsAux l).1 (wordsAux l).2) = l ∧
          (l ≠ [] → (wordsAux l).1 ≠ [])) ∧
     (∀ t, l = ' ' :: t →
        (wordsAux l).1 = [] ∧ (wordsAux l).2 ≠ [] ∧ sjoin (wordsAux l).2 = t)) := by
  intro l
  induction l with
  | nil =>
    intro _ _ _
    exact ⟨fun _ => ⟨rfl, fun h => absurd rfl h⟩, fun t ht => by cases ht⟩
  | cons c t ih =>
    intro h1 h2 h3
    have h1t := noTwoAdj_tail pyIsSpace c t h1
    have h2t := wsOnlySpace_tail c t h2
    have h3t : lastNotP pyIsSpace t = true := by
      cases t with
      | nil => rfl
      | cons b s => exact (lastNotP_cons_cons pyIsSpace c b s) ▸ h3
    have iht := ih h1t h2t h3t
    constructor
    · -- the head is not whitespace
      intro hhead
      have hc : pyIsSpace c = false := hhead
      have hA : wordsAux (c :: t) = (c :: (wordsAux t).1, (wordsAux t).2) := by
        simp [wordsAux, hc]
      rw [hA]
      have hpush : pushWord (c :: (wordsAux t).1) (wordsAux t).2 =
          (c :: (wordsAux t).1) :: (wordsAux t).2 := by
        simp [pushWord]
      rw [hpush, sjoin_cons_head]
      refine ⟨?_, fun _ => by simp⟩
      cases t with
      | nil => rfl
      | cons d t1 =>
        by_cases hd : pyIsSpace d = true
        · -- the next character is whitespace, hence a space
          have hd' : d = ' ' := by
            have := h2
            simp only [wsOnlySpace, List.all_cons, Bool.and_eq_true] at this
            have hmem := this.2.1
            rcases Bool.or_eq_true _ _ |>.mp hmem with h' | h'
            · simp [hd] at h'
            · simpa using h'
          subst hd'
          obtain ⟨hA1, hA2, hA3⟩ := iht.2 t1 rfl
          rw [hA1, sjoin_nil_cons _ hA2, hA3]
        · obtain ⟨hj, hne⟩ := iht.1 (by simpa [headP] using hd)
          have hne' := hne (by simp)
          have : pushWord (wordsAux (d :: t1)).1 (wordsAux (d :: t1)).2 =
              (wordsAux (d :: t1)).1 :: (wordsAux (d :: t1)).2 := by
            simp [pushWord, List.isEmpty_iff, hne']
          rw [this] at hj
          rw [hj]
    · -- the head is a space
      rintro t0 ht0
      injection ht0 with hc0 ht1
      subst hc0; subst ht1
      have hA : wordsAux (' ' :: t) = ([], pushWord (wordsAux t).1 (wordsAux t).2) := by
        simp [wordsAux, pyIsSpace]
      rw [hA]
      cases t with
      | nil => simp [lastNotP, pyIsSpace] at h3
      | cons d t1 =>
        have hd : pyIsSpace d = false := by
          simp only [noTwoAdj, Bool.and_eq_true, Bool.not_eq_true'] at h1
          have := h1.1
          rwa [show pyIsSpace ' ' = true from rfl, Bool.true_and] at this
        obtain ⟨hj, hne⟩ := iht.1 (by simpa [headP] using hd)
        have hne' := hne (by simp)
        have hpush : pushWord (wordsAux (d :: t1)).1 (wordsAux (d :: t1)).2 =
            (wordsAux (d :: t1)).1 :: (wordsAux (d :: t1)).2 := by
          simp [pushWord, List.isEmpty_iff, hne']
        refine ⟨rfl, ?_, ?_⟩
        · rw [hpush]; simp
        · rw [hj]

theorem sjoin_pySplit_id (l : List Char)
    (h1 : noTwoAdj pyIsSpace l = true) (h2 : wsOnlySpace l = true)
    (h3 : lastNotP pyIsSpace l = true) (h4 : headP pyIsSpace l = false) :
    sjoin (pySplit l) = l :=
  ((wordsAux_join l h1 h2 h3).1 h4).1

/-! ### Facts about the `json.dumps` encoder output -/

theorem hexDig_facts (k : Nat) (hk : k < 16) :
    32 ≤ (hexDig k).toNat ∧ pyIsSpace (hexDig k) = false := by
  interval_cases k <;> exact ⟨by decide, by decide⟩

theorem space_of_ws_ge32 (d : Char) (hws : pyIsSpace d = true)
    (hge : 32 ≤ d.toNat) : d = ' ' := by
  simp only [pyIsSpace, Bool.or_eq_true, beq_iff_eq] at hws
  rcases hws with ((((h | h) | h) | h) | h) | h <;> subst h <;>
    first | rfl | exact absurd hge (by decide)

theorem charToNat_valid (c : Char) :
    c.toNat < 55296 ∨ (57344 ≤ c.toNat ∧ c.toNat < 1114112) := c.valid

theorem uEsc_mem_shape (n : Nat) (d : Char) (hd : d ∈ uEsc n) :
    d = '\\' ∨ d = 'u' ∨ ∃ k, k < 16 ∧ d = hexDig k := by
  simp only [uEsc, uEscDigits, List.mem_cons, List.not_mem_nil, or_false] at hd
  rcases hd with h | h | h | h | h | h
  · exact Or.inl h
  · exact Or.inr (Or.inl h)
  · exact Or.inr (Or.inr ⟨_, Nat.mod_lt _ (by omega), h⟩)
  · exact Or.inr (Or.inr ⟨_, Nat.mod_lt _ (by omega), h⟩)
  · exact Or.inr (Or.inr ⟨_, Nat.mod_lt _ (by omega), h⟩)
  · exact Or.inr (Or.inr ⟨_, Nat.mod_lt _ (by omega), h⟩)

theorem escChar_cases (c d : Char) (hd : d ∈ escChar c) :
    (d = c ∧ 32 ≤ c.toNat ∧ c.toNat ≤ 126) ∨
      d ∈ ['\\', '"', 'b', 'f', 'n', 'r', 't'] ∨
      d = 'u' ∨ (∃ k, k < 16 ∧ d = hexDig k) := by
  unfold escChar at hd
  split at hd
  · right; left
    simp only [List.mem_cons, List.not_mem_nil, or_false] at hd ⊢
    tauto
  split at hd
  · right; left
    simp only [List.mem_cons, List.not_mem_nil, or_false] at hd ⊢
    tauto
  split at hd
  · right; left
    simp only [List.mem_cons, List.not_mem_nil, or_false] at hd ⊢
    tauto
  split at hd
  · right; left
    simp only [List.mem_cons, List.not_mem_nil, or_false] at hd ⊢
    tauto
  split at hd
  · right; left
    simp only [List.mem_cons, List.not_mem_nil, or_false] at hd ⊢
    tauto
  split at hd
  · right; left
    simp only [List.mem_cons, List.not_mem_nil, or_false] at hd ⊢
    tauto
  split at hd
  · right; left
    simp only [List.mem_cons, List.not_mem_nil, or_false] at hd ⊢
    tauto
  split at hd
  · rcases uEsc_mem_shape _ _ hd with h | h | h
    · right; left; simp [h]
    · right; right; exact Or.inl h
    · right; right; exact Or.inr h
  next h8 =>
  split at hd
  next h9 =>
    left
    refine ⟨by simpa using hd, by omega, h9⟩
  split at hd
  · rcases uEsc_mem_shape _ _ hd with h | h | h
    · right; left; simp [h]
    · right; right; exact Or.inl h
    · right; right; exact Or.inr h
  · rcases List.mem_append.mp hd with hmem | hmem <;>
      rcases uEsc_mem_shape _ _ hmem with h | h | h
    · right; left; simp [h]
    · right; right; exact Or.inl h
    · right; right; exact Or.inr h
    · right; left; simp [h]
    · right; right; exact Or.inl h
    · right; right; exact Or.inr h

theorem escChar_ge32 (c : Char) : ∀ d ∈ escChar c, 32 ≤ d.toNat := by
  intro d hd
  rcases escChar_cases c d hd with ⟨rfl, h, _⟩ | h | rfl | ⟨k, hk, rfl⟩
  · exact h
  · fin_cases h <;> decide
  · decide
  · exact (hexDig_facts k hk).1

theorem escList_ge32 : ∀ l : List Char, ∀ d ∈ escList l, 32 ≤ d.toNat := by
  intro l
  induction l with
  | nil => intro d hd; cases hd
  | cons c t ih =>
    intro d hd
    simp only [escList, List.mem_append] at hd
    rcases hd with h | h
    · exact escChar_ge32 c d h
    · exact ih d h

theorem escChar_space : escChar ' ' = [' '] := by decide

theorem escChar_nonspace_all (c : Char) (hc : c ≠ ' ') :
    ∀ d ∈ escChar c, pyIsSpace d = false := by
  intro d hd
  rcases escChar_cases c d hd with ⟨rfl, h1, h2⟩ | h | rfl | ⟨k, hk, rfl⟩
  · cases hws : pyIsSpace d
    · rfl
    · exact absurd (space_of_ws_ge32 d hws h1) hc
  · fin_cases h <;> decide
  · decide
  · exact (hexDig_facts k hk).2

theorem escChar_ne_nil (c : Char) : escChar c ≠ [] := by
  unfold escChar
  repeat' split
  all_goals simp [uEsc]

theorem escList_head_nonspace (l : List Char)
    (h : headP (fun c => c == ' ') l = false) :
    headP pyIsSpace (escList l) = false := by
  cases l with
  | nil => rfl
  | cons d t =>
    have hd : d ≠ ' ' := by
      simp only [headP, beq_eq_false_iff_ne, ne_eq] at h
      exact h
    show headP pyIsSpace (escChar d ++ escList t) = false
    rw [headP_append pyIsSpace _ _ (escChar_ne_nil d)]
    cases hh : escChar d with
    | nil => rfl
    | cons x s =>
      show pyIsSpace x = false
      exact escChar_nonspace_all d hd x (by rw [hh]; simp)

theorem escList_noTwoAdj : ∀ l : List Char,
    noTwoAdj (fun c => c == ' ') l = true →
    noTwoAdj pyIsSpace (escList l) = true := by
  intro l
  induction l with
  | nil => intro _; rfl
  | cons c t ih =>
    intro h
    have ht := noTwoAdj_tail _ c t h
    show noTwoAdj pyIsSpace (escChar c ++ escList t) = true
    by_cases hc : c = ' '
    · subst hc
      rw [escChar_space]
      refine noTwoAdj_append pyIsSpace [' '] (escList t) rfl (ih ht) ?_
      right
      apply escList_head_nonspace
      cases t with
      | nil => rfl
      | cons d s =>
        simp only [noTwoAdj, Bool.and_eq_true, Bool.not_eq_true'] at h
        have := h.1
        simp only [show ((' ' : Char) == ' ') = true from rfl, Bool.true_and] at this
        simpa [headP] using this
    · refine noTwoAdj_append pyIsSpace (escChar c) (escList t)
        (noTwoAdj_of_all_not _ _ (escChar_nonspace_all c hc)) (ih ht) ?_
      left
      exact lastNotP_of_all_not _ _ (escChar_nonspace_all c hc)

theorem map_id_of_mem {f : Char → Char} :
    ∀ l : List Char, (∀ c ∈ l, f c = c) → l.map f = l := by
  intro l
  induction l with
  | nil => intro _; rfl
  | cons a t ih =>
    intro h
    simp only [List.map_cons]
    rw [h a (by simp), ih (fun c hc => h c (by simp [hc]))]

/-! ### `clean_json_string` is the identity on encoder output -/

theorem dumpsList_split (v : List Char) :
    dumpsList v =
      ('\x7b' :: '"' :: 'e' :: 'm' :: 'a' :: 'i' :: 'l' :: '"' :: ':' :: ' ' ::
        '"' :: escList v) ++ ['"', '\x7d'] := by
  simp [dumpsList]

theorem dumpsList_ge32 (v : List Char) : ∀ d ∈ dumpsList v, 32 ≤ d.toNat := by
  intro d hd
  simp only [dumpsList, List.mem_cons, List.mem_append] at hd
  rcases hd with h|h|h|h|h|h|h|h|h|h|h|h
  · subst h; decide
  · subst h; decide
  · subst h; decide
  · subst h; decide
  · subst h; decide
  · subst h; decide
  · subst h; decide
  · subst h; decide
  · subst h; decide
  · subst h; decide
  · subst h; decide
  rcases h with h | h
  · exact escList_ge32 v d h
  · simp only [List.mem_cons, List.not_mem_nil, or_false] at h
    rcases h with h | h <;> (subst h; decide)

theorem stripCtl_dumpsList (v : List Char) : stripCtl (dumpsList v) = dumpsList v := by
  unfold stripCtl
  rw [List.filter_eq_self]
  intro a ha
  have := dumpsList_ge32 v a ha
  simp only [Bool.or_eq_true, decide_eq_true_eq]
  exact Or.inl (Or.inl (Or.inl this))

theorem findIdx_dumpsList (v : List Char) : findIdx (dumpsList v) '\x7b' = some 0 := by
  simp [dumpsList, findIdx]

theorem rfindIdx_append_last (l : List Char) (c : Char) :
    rfindIdx (l ++ [c]) c = some l.length := by
  unfold rfindIdx
  rw [List.reverse_append]
  simp only [List.reverse_cons, List.reverse_nil, List.nil_append, List.cons_append,
    List.singleton_append]
  simp [findIdx]

theorem rfindIdx_dumpsList (v : List Char) :
    rfindIdx (dumpsList v) '\x7d' =
      some ('\x7b' :: '"' :: 'e' :: 'm' :: 'a' :: 'i' :: 'l' :: '"' :: ':' :: ' ' ::
        '"' :: (escList v ++ ['"'])).length := by
  have h : dumpsList v =
      ('\x7b' :: '"' :: 'e' :: 'm' :: 'a' :: 'i' :: 'l' :: '"' :: ':' :: ' ' ::
        '"' :: (escList v ++ ['"'])) ++ ['\x7d'] := by
    simp [dumpsList]
  rw [h, rfindIdx_append_last]

theorem dumpsList_no_nl_cr (v : List Char) :
    (dumpsList v).map (fun c => if c == '\n' || c == '\r' then ' ' else c) =
      dumpsList v := by
  apply map_id_of_mem
  intro c hc
  have h32 := dumpsList_ge32 v c hc
  have h1 : (c == '\n') = false := by
    cases h : c == '\n'
    · rfl
    · exact absurd h32 (by simp only [beq_iff_eq] at h; subst h; decide)
  have h2 : (c == '\r') = false := by
    cases h : c == '\r'
    · rfl
    · exact absurd h32 (by simp only [beq_iff_eq] at h; subst h; decide)
  simp [h1, h2]

theorem dumpsList_wsOnlySpace (v : List Char) : wsOnlySpace (dumpsList v) = true := by
  unfold wsOnlySpace
  rw [List.all_eq_true]
  intro d hd
  have h32 := dumpsList_ge32 v d hd
  cases hws : pyIsSpace d
  · simp
  · simp [space_of_ws_ge32 d hws h32]

theorem dumpsList_noTwoAdj (v : List Char)
    (hv : noTwoAdj (fun c => c == ' ') v = true) :
    noTwoAdj pyIsSpace (dumpsList v) = true := by
  have h : dumpsList v =
      ['\x7b', '"', 'e', 'm', 'a', 'i', 'l', '"', ':', ' ', '"'] ++
        (escList v ++ ['"', '\x7d']) := by
    simp [dumpsList]
  rw [h]
  refine noTwoAdj_append pyIsSpace _ _ (by decide) ?_ (Or.inl (by decide))
  refine noTwoAdj_append pyIsSpace _ _ (escList_noTwoAdj v hv) (by decide) ?_
  exact Or.inr rfl

theorem dumpsList_lastNotWs (v : List Char) :
    lastNotP pyIsSpace (dumpsList v) = true := by
  rw [dumpsList_split, show (['"', '\x7d'] : List Char) = ['"'] ++ ['\x7d'] from rfl,
    ← List.append_assoc, lastNotP_append_singleton]
  decide

theorem clean_json_string_dumps (v : String)
    (hv : noTwoAdj (fun c => c == ' ') v.data = true) :
    clean_json_string (json_dumps_email v) = Except.ok (json_dumps_email v) := by
  have hdata : (json_dumps_email v).data = dumpsList v.data := rfl
  simp only [clean_json_string, hdata, stripCtl_dumpsList, findIdx_dumpsList,
    rfindIdx_dumpsList]
  have hlen : ('\x7b' :: '"' :: 'e' :: 'm' :: 'a' :: 'i' :: 'l' :: '"' :: ':' :: ' ' ::
      '"' :: (escList v.data ++ ['"'])).length + 1 - 0 = (dumpsList v.data).length := by
    simp [dumpsList]
  simp only [hlen, List.drop_zero, List.take_length, dumpsList_no_nl_cr]
  rw [sjoin_pySplit_id (dumpsList v.data) (dumpsList_noTwoAdj v.data hv)
    (dumpsList_wsOnlySpace v.data) (dumpsList_lastNotWs v.data) (by rfl)]
  rfl

/-! ### Decoding inverts the encoder -/

theorem hexDig_val (k : Nat) (hk : k < 16) : hexVal (hexDig k) = some k := by
  interval_cases k <;> decide

theorem parseHex4_cons (a b c d : Char) (t : List Char) (x y z w : Nat)
    (ha : hexVal a = some x) (hb : hexVal b = some y)
    (hc : hexVal c = some z) (hd : hexVal d = some w) :
    parseHex4 (a :: b :: c :: d :: t) = some (((x * 16 + y) * 16 + z) * 16 + w, t) := by
  have hred : parseHex4 (a :: b :: c :: d :: t) =
      (match hexVal a, hexVal b, hexVal c, hexVal d with
       | some x, some y, some z, some w => some (((x * 16 + y) * 16 + z) * 16 + w, t)
       | _, _, _, _ => none) := rfl
  rw [hred, ha, hb, hc, hd]

theorem parseHex4_uEscDigits (n : Nat) (rest : List Char) (hn : n < 65536) :
    parseHex4 (uEscDigits n ++ rest) = some (n, rest) := by
  have h : uEscDigits n ++ rest =
      hexDig (n / 4096 % 16) :: hexDig (n / 256 % 16) :: hexDig (n / 16 % 16) ::
        hexDig (n % 16) :: rest := by
    simp [uEscDigits]
  rw [h, parseHex4_cons _ _ _ _ _ _ _ _ _ (hexDig_val _ (Nat.mod_lt _ (by omega)))
    (hexDig_val _ (Nat.mod_lt _ (by omega))) (hexDig_val _ (Nat.mod_lt _ (by omega)))
    (hexDig_val _ (Nat.mod_lt _ (by omega)))]
  simp only [Option.some.injEq, Prod.mk.injEq, and_true]
  omega

theorem parseStrBody_u_plain (f : Nat) (t t3 : List Char) (n : Nat)
    (hhex : parseHex4 t = some (n, t3)) (hn : ¬(55296 ≤ n ∧ n ≤ 56319)) :
    parseStrBody (f + 1) ('\\' :: 'u' :: t) =
      mapCons (Char.ofNat n) (parseStrBody f t3) := by
  simp [parseStrBody, hhex, hn]

theorem parseStrBody_u_pair (f : Nat) (t t4 t5 : List Char) (n m : Nat)
    (hh1 : parseHex4 t = some (n, '\\' :: 'u' :: t4))
    (hh2 : parseHex4 t4 = some (m, t5))
    (hn : 55296 ≤ n ∧ n ≤ 56319) (hm : 56320 ≤ m ∧ m ≤ 57343) :
    parseStrBody (f + 1) ('\\' :: 'u' :: t) =
      mapCons (Char.ofNat (65536 + (n - 55296) * 1024 + (m - 56320)))
        (parseStrBody f t5) := by
  simp [parseStrBody, hh1, hh2, hn.1, hn.2, hm.1, hm.2]

theorem parseStrBody_escChar (c : Char) (cont : List Char) (f : Nat) :
    parseStrBody (f + 1) (escChar c ++ cont) = mapCons c (parseStrBody f cont) := by
  by_cases h1 : c = '"'
  · subst h1; simp [escChar, parseStrBody]
  by_cases h2 : c = '\\'
  · subst h2; simp [escChar, parseStrBody]
  by_cases h3 : c = '\x08'
  · subst h3; simp [escChar, parseStrBody]
  by_cases h4 : c = '\t'
  · subst h4; simp [escChar, parseStrBody]
  by_cases h5 : c = '\n'
  · subst h5; simp [escChar, parseStrBody]
  by_cases h6 : c = '\x0c'
  · subst h6; simp [escChar, parseStrBody]
  by_cases h7 : c = '\r'
  · subst h7; simp [escChar, parseStrBody]
  by_cases h8 : c.toNat < 32
  · have hesc : escChar c = '\\' :: 'u' :: uEscDigits c.toNat := by
      simp [escChar, uEsc, h1, h2, h3, h4, h5, h6, h7, h8]
    rw [hesc]
    simp only [List.cons_append]
    rw [parseStrBody_u_plain f _ cont c.toNat
      (parseHex4_uEscDigits c.toNat cont (by omega)) (by omega)]
    rw [Char.ofNat_toNat]
  · have hvalid := charToNat_valid c
    by_cases h9 : c.toNat ≤ 126
    · have hesc : escChar c = [c] := by
        simp [escChar, h1, h2, h3, h4, h5, h6, h7, h8, h9]
      rw [hesc]
      simp only [List.singleton_append]
      have hb1 : (c == '"') = false := by simp [h1]
      have hb2 : (c == '\\') = false := by simp [h2]
      simp [parseStrBody, hb1, hb2, h8]
    · by_cases h10 : c.toNat < 65536
      · have hesc : escChar c = '\\' :: 'u' :: uEscDigits c.toNat := by
          simp [escChar, uEsc, h1, h2, h3, h4, h5, h6, h7, h8, h9, h10]
        rw [hesc]
        simp only [List.cons_append]
        rw [parseStrBody_u_plain f _ cont c.toNat
          (parseHex4_uEscDigits c.toNat cont h10) (by omega)]
        rw [Char.ofNat_toNat]
      · have hesc : escChar c =
            uEsc (55296 + (c.toNat - 65536) / 1024) ++
              uEsc (56320 + (c.toNat - 65536) % 1024) := by
          simp [escChar, h1, h2, h3, h4, h5, h6, h7, h8, h9, h10]
        rw [hesc]
        have hq : (c.toNat - 65536) / 1024 < 1024 := by omega
        have hr : (c.toNat - 65536) % 1024 < 1024 := Nat.mod_lt _ (by omega)
        have hshape : uEsc (55296 + (c.toNat - 65536) / 1024) ++
            uEsc (56320 + (c.toNat - 65536) % 1024) ++ cont =
            '\\' :: 'u' :: (uEscDigits (55296 + (c.toNat - 65536) / 1024) ++
              ('\\' :: 'u' :: (uEscDigits (56320 + (c.toNat - 65536) % 1024) ++ cont))) := by
          simp [uEsc]
        rw [hshape]
        rw [parseStrBody_u_pair f _ _ cont (55296 + (c.toNat - 65536) / 1024)
          (56320 + (c.toNat - 65536) % 1024)
          (parseHex4_uEscDigits _ _ (by omega))
          (parseHex4_uEscDigits _ _ (by omega))
          (by omega) (by omega)]
        have harith : 65536 + (55296 + (c.toNat - 65536) / 1024 - 55296) * 1024 +
            (56320 + (c.toNat - 65536) % 1024 - 56320) = c.toNat := by omega
        rw [harith, Char.ofNat_toNat]

theorem parseStrBody_escList : ∀ (t : List Char) (rest : List Char) (f : Nat),
    t.length + 1 ≤ f →
    parseStrBody f (escList t ++ '"' :: rest) = some (t, rest) := by
  intro t
  induction t with
  | nil =>
    intro rest f hf
    obtain ⟨f', rfl⟩ : ∃ g, f = g + 1 := ⟨f - 1, by omega⟩
    simp [escList, parseStrBody]
  | cons c t' ih =>
    intro rest f hf
    obtain ⟨f', rfl⟩ : ∃ g, f = g + 1 := ⟨f - 1, by omega⟩
    have hshape : escList (c :: t') ++ '"' :: rest =
        escChar c ++ (escList t' ++ '"' :: rest) := by
      simp [escList]
    rw [hshape, parseStrBody_escChar]
    rw [ih rest f' (by simp at hf; omega)]
    rfl

theorem escList_length_ge : ∀ l : List Char, l.length ≤ (escList l).length := by
  intro l
  induction l with
  | nil => simp [escList]
  | cons c t ih =>
    show t.length + 1 ≤ (escChar c ++ escList t).length
    rw [List.length_append]
    have h1 : 1 ≤ (escChar c).length := by
      cases hh : escChar c with
      | nil => exact absurd hh (escChar_ne_nil c)
      | cons x s => simp
    omega

theorem parseStrBody_email_key (r : List Char) :
    parseStrBody (('e' :: 'm' :: 'a' :: 'i' :: 'l' :: '"' :: r).length + 1)
      ('e' :: 'm' :: 'a' :: 'i' :: 'l' :: '"' :: r) =
      some (['e', 'm', 'a', 'i', 'l'], r) := by
  have hsh : 'e' :: 'm' :: 'a' :: 'i' :: 'l' :: '"' :: r =
      escList ['e', 'm', 'a', 'i', 'l'] ++ '"' :: r := rfl
  rw [hsh]
  refine parseStrBody_escList _ _ _ ?_
  have h5 : (escList ['e', 'm', 'a', 'i', 'l']).length = 5 := rfl
  simp [h5]

theorem parseMembersF_email (pv : List Char → Option (JVal × List Char))
    (g : Nat) (R : List Char) (v : JVal) (r3 : List Char)
    (hpv : pv (' ' :: '"' :: R) = some (v, r3))
    (hr3 : skipWs r3 = ['\x7d']) :
    parseMembersF pv (g + 1)
      ('"' :: 'e' :: 'm' :: 'a' :: 'i' :: 'l' :: '"' :: ':' :: ' ' :: '"' :: R) [] =
      some ([(String.mk ['e', 'm', 'a', 'i', 'l'], v)], []) := by
  rw [show parseMembersF pv (g + 1)
      ('"' :: 'e' :: 'm' :: 'a' :: 'i' :: 'l' :: '"' :: ':' :: ' ' :: '"' :: R) [] =
      (match parseStrBody
          (('e' :: 'm' :: 'a' :: 'i' :: 'l' :: '"' :: ':' :: ' ' :: '"' :: R).length + 1)
          ('e' :: 'm' :: 'a' :: 'i' :: 'l' :: '"' :: ':' :: ' ' :: '"' :: R) with
       | some (k, r1) =>
         (match skipWs r1 with
          | ':' :: r2 =>
            (match pv r2 with
             | some (v, r3) =>
               (match skipWs r3 with
                | ',' :: r4 => parseMembersF pv g (skipWs r4) (dictInsert [] (String.mk k) v)
                | '\x7d' :: r4 => some (dictInsert [] (String.mk k) v, r4)
                | _ => none)
             | none => none)
          | _ => none)
       | none => none) from rfl]
  rw [parseStrBody_email_key (':' :: ' ' :: '"' :: R)]
  change (match pv (' ' :: '"' :: R) with
    | some (a, b) =>
      (match skipWs b with
       | ',' :: r4 =>
         parseMembersF pv g (skipWs r4)
           (dictInsert [] (String.mk ['e', 'm', 'a', 'i', 'l']) a)
       | '\x7d' :: r4 => some (dictInsert [] (String.mk ['e', 'm', 'a', 'i', 'l']) a, r4)
       | _ => none)
    | none => none) = some ([(String.mk ['e', 'm', 'a', 'i', 'l'], v)], [])
  rw [hpv]
  change (match skipWs r3 with
    | ',' :: r4 =>
      parseMembersF pv g (skipWs r4)
        (dictInsert [] (String.mk ['e', 'm', 'a', 'i', 'l']) v)
    | '\x7d' :: r4 => some (dictInsert [] (String.mk ['e', 'm', 'a', 'i', 'l']) v, r4)
    | _ => none) = some ([(String.mk ['e', 'm', 'a', 'i', 'l'], v)], [])
  rw [hr3]
  rfl

theorem parseVal_strvalue (f : Nat) (l : List Char) :
    parseVal (f + 1) (' ' :: '"' :: (escList l ++ ['"', '\x7d'])) =
      some (JVal.jstr (String.mk l), ['\x7d']) := by
  have hval : parseStrBody ((escList l ++ ['"', '\x7d']).length + 1)
      (escList l ++ ['"', '\x7d']) = some (l, ['\x7d']) := by
    refine parseStrBody_escList l ['\x7d'] _ ?_
    have := escList_length_ge l
    simp only [List.length_append, List.length_cons, List.length_nil]
    omega
  rw [show parseVal (f + 1) (' ' :: '"' :: (escList l ++ ['"', '\x7d'])) =
      (parseStrBody ((escList l ++ ['"', '\x7d']).length + 1)
        (escList l ++ ['"', '\x7d'])).map
        (fun p => (JVal.jstr (String.mk p.1), p.2)) from rfl]
  rw [hval]
  rfl

theorem parseVal_dumps (l : List Char) (f : Nat) :
    parseVal (f + 1 + 1) (dumpsList l) =
      some (JVal.jobj [("email", JVal.jstr (String.mk l))], []) := by
  rw [show parseVal (f + 1 + 1) (dumpsList l) =
      (parseMembersF (parseVal (f + 1))
        (('"' :: 'e' :: 'm' :: 'a' :: 'i' :: 'l' :: '"' :: ':' :: ' ' :: '"' ::
          (escList l ++ ['"', '\x7d'])).length + 1)
        ('"' :: 'e' :: 'm' :: 'a' :: 'i' :: 'l' :: '"' :: ':' :: ' ' :: '"' ::
          (escList l ++ ['"', '\x7d'])) []).map
        (fun p => (JVal.jobj p.1, p.2)) from rfl]
  rw [parseMembersF_email (parseVal (f + 1)) _ _ (JVal.jstr (String.mk l)) ['\x7d']
    (parseVal_strvalue f l) rfl]
  rfl

theorem json_loads_dumps (v : String) :
    json_loads (json_dumps_email v) =
      Except.ok (JVal.jobj [("email", JVal.jstr v)]) := by
  unfold json_loads
  have hdata : (json_dumps_email v).data = dumpsList v.data := rfl
  rw [hdata]
  have h13 : 13 ≤ (dumpsList v.data).length := by
    simp [dumpsList]
  obtain ⟨f, hf⟩ : ∃ f, (dumpsList v.data).length + 1 = f + 1 + 1 :=
    ⟨(dumpsList v.data).length - 1, by omega⟩
  rw [hf, parseVal_dumps]
  rfl

theorem recoverParse_dumps (v : String)
    (hv : noTwoAdj (fun c => c == ' ') v.data = true) :
    recoverParse (json_dumps_email v) =
      Except.ok (JVal.jobj [("email", JVal.jstr v)]) := by
  unfold recoverParse
  rw [clean_json_string_dumps v hv]
  rw [show (Except.ok (json_dumps_email v) : Except String String).bind json_loads =
      json_loads (json_dumps_email v) from rfl]
  exact json_loads_dumps v

/-! ### Unfolding lemmas for the retry loop -/

theorem loop_zero (b : Nat → BackendResp) (maxR rc : Nat) :
    extract_loop_fuel b maxR 0 rc =
      { res := { status := "error",
                 message := some ("Failed after " ++ toString maxR ++ " retries") },
        calls := 0, exit := ExitTag.genericExit } := rfl

theorem loop_exn_retry (b : Nat → BackendResp) (maxR f rc : Nat) (msg : String)
    (hb : b rc = BackendResp.exn msg)
    (hc : (pyInStr "ThrottlingException" msg && decide (rc < maxR - 1)) = true) :
    extract_loop_fuel b maxR (f + 1) rc =
      { extract_loop_fuel b maxR f (rc + 1) with
        calls := (extract_loop_fuel b maxR f (rc + 1)).calls + 1 } := by
  simp [extract_loop_fuel, hb, hc]

theorem loop_exn_stop (b : Nat → BackendResp) (maxR f rc : Nat) (msg : String)
    (hb : b rc = BackendResp.exn msg)
    (hc : (pyInStr "ThrottlingException" msg && decide (rc < maxR - 1)) = false) :
    extract_loop_fuel b maxR (f + 1) rc =
      { res := { status := "error", message := some ("API error: " ++ msg) },
        calls := 1, exit := ExitTag.apiErrorExit } := by
  simp [extract_loop_fuel, hb, hc]

theorem loop_reply_success (b : Nat → BackendResp) (maxR f rc : Nat)
    (text : String) (fields : List (String × JVal))
    (hb : b rc = BackendResp.reply text)
    (hr : recoverParse text = Except.ok (JVal.jobj fields)) :
    extract_loop_fuel b maxR (f + 1) rc =
      { res := { status := "success", data := some (ensureFields fields),
                 raw_response := some text },
        calls := 1, exit := ExitTag.successExit } := by
  simp [extract_loop_fuel, hb, hr]

theorem loop_reply_parsefail_last (b : Nat → BackendResp) (maxR f rc : Nat)
    (text e : String)
    (hb : b rc = BackendResp.reply text)
    (hr : recoverParse text = Except.error e)
    (hrc : rc = maxR - 1) :
    extract_loop_fuel b maxR (f + 1) rc =
      { res := { status := "error",
                 message := some ("Failed to parse response as JSON: " ++ e),
                 raw_response := some text },
        calls := 1, exit := ExitTag.parseFailExit } := by
  subst hrc
  simp [extract_loop_fuel, hb, hr]

theorem loop_reply_parsefail_retry (b : Nat → BackendResp) (maxR f rc : Nat)
    (text e : String)
    (hb : b rc = BackendResp.reply text)
    (hr : recoverParse text = Except.error e)
    (hrc : ¬rc = maxR - 1) :
    extract_loop_fuel b maxR (f + 1) rc =
      { extract_loop_fuel b maxR f (rc + 1) with
        calls := (extract_loop_fuel b maxR f (rc + 1)).calls + 1 } := by
  simp [extract_loop_fuel, hb, hr, hrc]

theorem extract_known (b : Nat → BackendResp) (name : String) (maxR : Nat)
    (hk : knownModel name = true) :
    extract_business_card_info b name maxR = extract_loop_fuel b maxR maxR 0 := by
  simp [extract_business_card_info, hk]

theorem extract_unknown (b : Nat → BackendResp) (name : String) (maxR : Nat)
    (hk : knownModel name = false) :
    extract_business_card_info b name maxR =
      { res := { status := "error", message := some ("Unknown model: " ++ name) },
        calls := 0, exit := ExitTag.unknownModelExit } := by
  simp [extract_business_card_info, hk]

/-! ## Claims -/

/-- C1: for every invocation of `extract_business_card_info` with
`max_retries = 3` (and a known model) against a backend whose call raises a
throttling error on every attempt, exactly 3 backend calls are made and the
result is a Failure carrying the backend error message, with no raw reply. -/
theorem claim1_throttle_three_calls (backend : Nat → BackendResp)
    (msgs : Nat → String) (name : String)
    (hk : knownModel name = true)
    (hb : ∀ i, backend i = BackendResp.exn (msgs i))
    (ht : ∀ i, pyInStr "ThrottlingException" (msgs i) = true) :
    (extract_business_card_info backend name 3).calls = 3 ∧
    (extract_business_card_info backend name 3).res.status = "error" ∧
    (extract_business_card_info backend name 3).res.message =
      some ("API error: " ++ msgs 2) ∧
    (extract_business_card_info backend name 3).res.raw_response = none := by
  rw [extract_known backend name 3 hk]
  rw [show extract_loop_fuel backend 3 3 0 = extract_loop_fuel backend 3 (2 + 1) 0 from rfl]
  rw [loop_exn_retry backend 3 2 0 (msgs 0) (hb 0) (by rw [ht 0]; decide)]
  rw [show extract_loop_fuel backend 3 2 1 = extract_loop_fuel backend 3 (1 + 1) 1 from rfl]
  rw [loop_exn_retry backend 3 1 1 (msgs 1) (hb 1) (by rw [ht 1]; decide)]
  rw [show extract_loop_fuel backend 3 1 2 = extract_loop_fuel backend 3 (0 + 1) 2 from rfl]
  rw [loop_exn_stop backend 3 0 2 (msgs 2) (hb 2) (by rw [ht 2]; decide)]
  exact ⟨rfl, rfl, rfl, rfl⟩

/-- C2: with `max_retries = 3` (and a known model), if payload recovery
fails on the first two replies and succeeds on the third, the result is a
Success after exactly 3 backend calls; if recovery fails on all three
replies, the result is a Failure carrying the parse error message and the
last raw reply, again after exactly 3 calls. -/
theorem claim2_parse_retry_budget (name : String) (hk : knownModel name = true)
    (u t : Nat → String) (fs : List (String × JVal)) (f0 f1 e0 e1 e2 : String)
    (hu0 : recoverParse (u 0) = Except.error f0)
    (hu1 : recoverParse (u 1) = Except.error f1)
    (hu2 : recoverParse (u 2) = Except.ok (JVal.jobj fs))
    (ht0 : recoverParse (t 0) = Except.error e0)
    (ht1 : recoverParse (t 1) = Except.error e1)
    (ht2 : recoverParse (t 2) = Except.error e2) :
    ((extract_business_card_info (fun i => BackendResp.reply (u i)) name 3).calls = 3 ∧
     (extract_business_card_info (fun i => BackendResp.reply (u i)) name 3).res.status =
       "success") ∧
    ((extract_business_card_info (fun i => BackendResp.reply (t i)) name 3).calls = 3 ∧
     (extract_business_card_info (fun i => BackendResp.reply (t i)) name 3).res.status =
       "error" ∧
     (extract_business_card_info (fun i => BackendResp.reply (t i)) name 3).res.message =
       some ("Failed to parse response as JSON: " ++ e2) ∧
     (extract_business_card_info (fun i => BackendResp.reply (t i)) name 3).res.raw_response =
       some (t 2)) := by
  constructor
  · rw [extract_known _ name 3 hk]
    rw [show extract_loop_fuel (fun i => BackendResp.reply (u i)) 3 3 0 =
        extract_loop_fuel (fun i => BackendResp.reply (u i)) 3 (2 + 1) 0 from rfl]
    rw [loop_reply_parsefail_retry _ 3 2 0 (u 0) f0 rfl hu0 (by decide)]
    rw [show extract_loop_fuel (fun i => BackendResp.reply (u i)) 3 2 1 =
        extract_loop_fuel (fun i => BackendResp.reply (u i)) 3 (1 + 1) 1 from rfl]
    rw [loop_reply_parsefail_retry _ 3 1 1 (u 1) f1 rfl hu1 (by decide)]
    rw [show extract_loop_fuel (fun i => BackendResp.reply (u i)) 3 1 2 =
        extract_loop_fuel (fun i => BackendResp.reply (u i)) 3 (0 + 1) 2 from rfl]
    rw [loop_reply_success _ 3 0 2 (u 2) fs rfl hu2]
    exact ⟨rfl, rfl⟩
  · rw [extract_known _ name 3 hk]
    rw [show extract_loop_fuel (fun i => BackendResp.reply (t i)) 3 3 0 =
        extract_loop_fuel (fun i => BackendResp.reply (t i)) 3 (2 + 1) 0 from rfl]
    rw [loop_reply_parsefail_retry _ 3 2 0 (t 0) e0 rfl ht0 (by decide)]
    rw [show extract_loop_fuel (fun i => BackendResp.reply (t i)) 3 2 1 =
        extract_loop_fuel (fun i => BackendResp.reply (t i)) 3 (1 + 1) 1 from rfl]
    rw [loop_reply_parsefail_retry _ 3 1 1 (t 1) e1 rfl ht1 (by decide)]
    rw [show extract_loop_fuel (fun i => BackendResp.reply (t i)) 3 1 2 =
        extract_loop_fuel (fun i => BackendResp.reply (t i)) 3 (0 + 1) 2 from rfl]
    rw [loop_reply_parsefail_last _ 3 0 2 (t 2) e2 rfl ht2 (by decide)]
    exact ⟨rfl, rfl, rfl, rfl⟩

/-! ### Structural facts about the loop, for the remaining claims -/

theorem bump_res (X : RunOut) (c : Nat) : ({ X with calls := c }).res = X.res := rfl

theorem bump_exit (X : RunOut) (c : Nat) : ({ X with calls := c }).exit = X.exit := rfl

theorem loop_typeerror_stop (b : Nat → BackendResp) (maxR f rc : Nat)
    (text : String) (v : JVal)
    (hb : b rc = BackendResp.reply text)
    (hr : recoverParse text = Except.ok v)
    (hv : ∀ fields, v ≠ JVal.jobj fields) :
    extract_loop_fuel b maxR (f + 1) rc =
      { res := { status := "error",
                 message := some ("API error: " ++ typeErrorMsg) },
        calls := 1, exit := ExitTag.apiErrorExit } := by
  cases v with
  | jobj fields => exact absurd rfl (hv fields)
  | jnull => simp [extract_loop_fuel, hb, hr,
      show pyInStr "ThrottlingException" typeErrorMsg = false from rfl]
  | jbool x => simp [extract_loop_fuel, hb, hr,
      show pyInStr "ThrottlingException" typeErrorMsg = false from rfl]
  | jnum x => simp [extract_loop_fuel, hb, hr,
      show pyInStr "ThrottlingException" typeErrorMsg = false from rfl]
  | jstr x => simp [extract_loop_fuel, hb, hr,
      show pyInStr "ThrottlingException" typeErrorMsg = false from rfl]
  | jarr x => simp [extract_loop_fuel, hb, hr,
      show pyInStr "ThrottlingException" typeErrorMsg = false from rfl]

theorem loop_status_cases : ∀ (f : Nat) (b : Nat → BackendResp) (maxR rc : Nat),
    (extract_loop_fuel b maxR f rc).res.status = "success" ∨
    (extract_loop_fuel b maxR f rc).res.status = "error" := by
  intro f
  induction f with
  | zero => intro b maxR rc; right; rfl
  | succ f ih =>
    intro b maxR rc
    cases hb : b rc with
    | exn msg =>
      by_cases hc : (pyInStr "ThrottlingException" msg && decide (rc < maxR - 1)) = true
      · rw [loop_exn_retry b maxR f rc msg hb hc, bump_res]
        exact ih b maxR (rc + 1)
      · rw [loop_exn_stop b maxR f rc msg hb (by simpa using hc)]
        right; rfl
    | reply text =>
      cases hr : recoverParse text with
      | ok v =>
        cases v with
        | jobj fields =>
          rw [loop_reply_success b maxR f rc text fields hb hr]
          left; rfl
        | jnull => rw [loop_typeerror_stop b maxR f rc text _ hb hr (by intro z h; cases h)]; right; rfl
        | jbool x => rw [loop_typeerror_stop b maxR f rc text _ hb hr (by intro z h; cases h)]; right; rfl
        | jnum x => rw [loop_typeerror_stop b maxR f rc text _ hb hr (by intro z h; cases h)]; right; rfl
        | jstr x => rw [loop_typeerror_stop b maxR f rc text _ hb hr (by intro z h; cases h)]; right; rfl
        | jarr x => rw [loop_typeerror_stop b maxR f rc text _ hb hr (by intro z h; cases h)]; right; rfl
      | error e =>
        by_cases hrc : rc = maxR - 1
        · rw [loop_reply_parsefail_last b maxR f rc text e hb hr hrc]
          right; rfl
        · rw [loop_reply_parsefail_retry b maxR f rc text e hb hr hrc, bump_res]
          exact ih b maxR (rc + 1)

theorem loop_no_generic : ∀ (f : Nat) (b : Nat → BackendResp) (maxR rc : Nat),
    rc < maxR → maxR - rc = f →
    ((extract_loop_fuel b maxR f rc).exit = ExitTag.successExit ∨
     (extract_loop_fuel b maxR f rc).exit = ExitTag.parseFailExit ∨
     (extract_loop_fuel b maxR f rc).exit = ExitTag.apiErrorExit) := by
  intro f
  induction f with
  | zero => intro b maxR rc h1 h2; omega
  | succ f ih =>
    intro b maxR rc h1 h2
    cases hb : b rc with
    | exn msg =>
      by_cases hc : (pyInStr "ThrottlingException" msg && decide (rc < maxR - 1)) = true
      · rw [loop_exn_retry b maxR f rc msg hb hc, bump_exit]
        have hlt : rc < maxR - 1 := of_decide_eq_true (Bool.and_elim_right hc)
        exact ih b maxR (rc + 1) (by omega) (by omega)
      · rw [loop_exn_stop b maxR f rc msg hb (by simpa using hc)]
        right; right; rfl
    | reply text =>
      cases hr : recoverParse text with
      | ok v =>
        cases v with
        | jobj fields =>
          rw [loop_reply_success b maxR f rc text fields hb hr]
          left; rfl
        | jnull => rw [loop_typeerror_stop b maxR f rc text _ hb hr (by intro z h; cases h)]; right; right; rfl
        | jbool x => rw [loop_typeerror_stop b maxR f rc text _ hb hr (by intro z h; cases h)]; right; right; rfl
        | jnum x => rw [loop_typeerror_stop b maxR f rc text _ hb hr (by intro z h; cases h)]; right; right; rfl
        | jstr x => rw [loop_typeerror_stop b maxR f rc text _ hb hr (by intro z h; cases h)]; right; right; rfl
        | jarr x => rw [loop_typeerror_stop b maxR f rc text _ hb hr (by intro z h; cases h)]; right; right; rfl
      | error e =>
        by_cases hrc : rc = maxR - 1
        · rw [loop_reply_parsefail_last b maxR f rc text e hb hr hrc]
          right; left; rfl
        · rw [loop_reply_parsefail_retry b maxR f rc text e hb hr hrc, bump_exit]
          exact ih b maxR (rc + 1) (by omega) (by omega)

theorem loop_success_shape : ∀ (f : Nat) (b : Nat → BackendResp) (maxR rc : Nat),
    (extract_loop_fuel b maxR f rc).res.status = "success" →
    ∃ text fields, recoverParse text = Except.ok (JVal.jobj fields) ∧
      (extract_loop_fuel b maxR f rc).res.data = some (ensureFields fields) ∧
      (extract_loop_fuel b maxR f rc).res.raw_response = some text := by
  intro f
  induction f with
  | zero => intro b maxR rc h; rw [loop_zero] at h; simp at h
  | succ f ih =>
    intro b maxR rc h
    cases hb : b rc with
    | exn msg =>
      by_cases hc : (pyInStr "ThrottlingException" msg && decide (rc < maxR - 1)) = true
      · rw [loop_exn_retry b maxR f rc msg hb hc, bump_res] at h ⊢
        exact ih b maxR (rc + 1) h
      · rw [loop_exn_stop b maxR f rc msg hb (by simpa using hc)] at h
        simp at h
    | reply text =>
      cases hr : recoverParse text with
      | ok v =>
        cases v with
        | jobj fields =>
          rw [loop_reply_success b maxR f rc text fields hb hr]
          exact ⟨text, fields, hr, rfl, rfl⟩
        | jnull =>
          rw [loop_typeerror_stop b maxR f rc text _ hb hr (by intro z hz; cases hz)] at h
          simp at h
        | jbool x =>
          rw [loop_typeerror_stop b maxR f rc text _ hb hr (by intro z hz; cases hz)] at h
          simp at h
        | jnum x =>
          rw [loop_typeerror_stop b maxR f rc text _ hb hr (by intro z hz; cases hz)] at h
          simp at h
        | jstr x =>
          rw [loop_typeerror_stop b maxR f rc text _ hb hr (by intro z hz; cases hz)] at h
          simp at h
        | jarr x =>
          rw [loop_typeerror_stop b maxR f rc text _ hb hr (by intro z hz; cases hz)] at h
          simp at h
      | error e =>
        by_cases hrc : rc = maxR - 1
        · rw [loop_reply_parsefail_last b maxR f rc text e hb hr hrc] at h
          simp at h
        · rw [loop_reply_parsefail_retry b maxR f rc text e hb hr hrc, bump_res] at h ⊢
          exact ih b maxR (rc + 1) h

theorem pyGet_append_left {α : Type} (l1 l2 : List (String × α)) (k : String)
    (v : α) (h : pyGet l1 k = some v) : pyGet (l1 ++ l2) k = some v := by
  induction l1 with
  | nil => simp [pyGet] at h
  | cons p t ih =>
    obtain ⟨k', v'⟩ := p
    simp only [pyGet, List.cons_append] at h ⊢
    by_cases hk : (k' == k) = true
    · simpa [hk] using h
    · simp only [hk, Bool.false_eq_true, if_false] at h ⊢
      exact ih h

theorem pyGet_append_of_none {α : Type} (l1 l2 : List (String × α)) (k : String)
    (h : pyGet l1 k = none) : pyGet (l1 ++ l2) k = pyGet l2 k := by
  induction l1 with
  | nil => rfl
  | cons p t ih =>
    obtain ⟨k', v'⟩ := p
    simp only [pyGet, List.cons_append] at h ⊢
    by_cases hk : (k' == k) = true
    · simp [hk] at h
    · simp only [hk, Bool.false_eq_true, if_false] at h ⊢
      exact ih h

theorem ensureFields_email_present (fs : List (String × JVal)) :
    ∃ v, pyGet (ensureFields fs) "email" = some v := by
  unfold ensureFields
  cases h : pyGet fs "email" with
  | some v => simp [h]
  | none =>
    simp only [h, Option.isSome_none, Bool.false_eq_true, if_false]
    refine ⟨JVal.jstr "", ?_⟩
    rw [pyGet_append_of_none fs _ _ h]
    rfl

theorem ensureFields_default (fs : List (String × JVal))
    (h : pyGet fs "email" = none) :
    pyGet (ensureFields fs) "email" = some (JVal.jstr "") := by
  unfold ensureFields
  simp only [h, Option.isSome_none, Bool.false_eq_true, if_false]
  rw [pyGet_append_of_none fs _ _ h]
  rfl

theorem ensureFields_preserve (fs : List (String × JVal)) (k : String) (v : JVal)
    (h : pyGet fs k = some v) : pyGet (ensureFields fs) k = some v := by
  unfold ensureFields
  cases he : pyGet fs "email" with
  | some w => simpa [he] using h
  | none =>
    simp only [he, Option.isSome_none, Bool.false_eq_true, if_false]
    exact pyGet_append_left fs _ k v h

/-- C6: for every model name absent from `MODEL_IDS`, the extraction returns
the unknown-model Failure immediately: zero backend calls, no retries, no
data and no raw reply. -/
theorem claim6_unknown_model_short_circuits (backend : Nat → BackendResp)
    (name : String) (maxR : Nat) (hk : pyGet MODEL_IDS name = none) :
    (extract_business_card_info backend name maxR).calls = 0 ∧
    (extract_business_card_info backend name maxR).res.status = "error" ∧
    (extract_business_card_info backend name maxR).res.message =
      some ("Unknown model: " ++ name) ∧
    (extract_business_card_info backend name maxR).exit = ExitTag.unknownModelExit ∧
    (extract_business_card_info backend name maxR).res.data = none ∧
    (extract_business_card_info backend name maxR).res.raw_response = none := by
  have hkm : knownModel name = false := by
    simp [knownModel, hk]
  rw [extract_unknown backend name maxR hkm]
  exact ⟨rfl, rfl, rfl, rfl, rfl, rfl⟩

/-- C7: for every backend behaviour (arbitrary replies or exceptions on each
attempt), every model name and every retry budget, the extraction returns a
result tagged `success` or `error` — nothing else crosses the boundary. -/
theorem claim7_total_status (backend : Nat → BackendResp) (name : String)
    (maxR : Nat) :
    (extract_business_card_info backend name maxR).res.status = "success" ∨
    (extract_business_card_info backend name maxR).res.status = "error" := by
  cases hk : knownModel name with
  | true =>
    rw [extract_known backend name maxR hk]
    exact loop_status_cases maxR backend maxR 0
  | false =>
    rw [extract_unknown backend name maxR hk]
    right; rfl

/-- C8: every Success result of the extraction carries a payload that
contains the key `"email"` — set to the empty string whenever the reply's
JSON object omitted it — and preserves every field of the reply's JSON
object other than `"email"` unchanged. -/
theorem claim8_payload_invariant (backend : Nat → BackendResp) (name : String)
    (maxR : Nat) (d : List (String × JVal)) (raw : String)
    (hs : (extract_business_card_info backend name maxR).res.status = "success")
    (hd : (extract_business_card_info backend name maxR).res.data = some d)
    (hr : (extract_business_card_info backend name maxR).res.raw_response = some raw) :
    (∃ v, pyGet d "email" = some v) ∧
    ∃ fs, recoverParse raw = Except.ok (JVal.jobj fs) ∧
      (pyGet fs "email" = none → pyGet d "email" = some (JVal.jstr "")) ∧
      (∀ k v, pyGet fs k = some v → k ≠ "email" → pyGet d k = some v) := by
  cases hk : knownModel name with
  | false =>
    rw [extract_unknown backend name maxR hk] at hs
    simp at hs
  | true =>
    rw [extract_known backend name maxR hk] at hs hd hr
    obtain ⟨text, fields, hrec, hdata, hraw⟩ :=
      loop_success_shape maxR backend maxR 0 hs
    rw [hd] at hdata
    rw [hr] at hraw
    have hd' : d = ensureFields fields := by
      injection hdata with h
    have hraw' : raw = text := by
      injection hraw with h
    subst hd'
    subst hraw'
    refine ⟨ensureFields_email_present fields, fields, hrec, ?_, ?_⟩
    · exact ensureFields_default fields
    · intro k v hkv _
      exact ensureFields_preserve fields k v hkv

/-- C10: with a known model, the generic retry-budget-exhausted return
(`Failed after N retries`) is reached iff `max_retries = 0` — in which case
no backend call is made — and for every positive retry budget the loop
always returns through the success exit or one of the two specific failure
exits before its condition fails. -/
theorem claim10_generic_exit_iff (backend : Nat → BackendResp) (name : String)
    (maxR : Nat) (hk : knownModel name = true) :
    ((extract_business_card_info backend name maxR).exit = ExitTag.genericExit ↔
      maxR = 0) ∧
    (maxR = 0 →
      (extract_business_card_info backend name maxR).calls = 0 ∧
      (extract_business_card_info backend name maxR).res.message =
        some ("Failed after " ++ toString maxR ++ " retries")) ∧
    (0 < maxR →
      (extract_business_card_info backend name maxR).exit = ExitTag.successExit ∨
      (extract_business_card_info backend name maxR).exit = ExitTag.parseFailExit ∨
      (extract_business_card_info backend name maxR).exit = ExitTag.apiErrorExit) := by
  rw [extract_known backend name maxR hk]
  refine ⟨⟨?_, ?_⟩, ?_, ?_⟩
  · intro hg
    by_contra h0
    have hpos : 0 < maxR := Nat.pos_of_ne_zero h0
    rcases loop_no_generic maxR backend maxR 0 hpos (by omega) with h | h | h <;>
      exact absurd (h.symm.trans hg) (by decide)
  · intro h0
    subst h0
    rfl
  · intro h0
    subst h0
    exact ⟨rfl, rfl⟩
  · intro hpos
    exact loop_no_generic maxR backend maxR 0 hpos (by omega)

/-! ### Claim C3: where `NoJsonFound` is raised -/

theorem json_loads_ne_noJson (c : String) :
    json_loads c ≠ Except.error noJsonMsg := by
  unfold json_loads
  cases h : parseVal (c.data.length + 1) c.data with
  | some p =>
    obtain ⟨v, rest⟩ := p
    by_cases hrest : skipWs rest = []
    · simp [hrest]
    · simp only [hrest, if_false]
      intro hcontra
      have : "Extra data" = noJsonMsg := by injection hcontra
      exact absurd this (by decide)
  | none =>
    intro hcontra
    have : "Expecting value" = noJsonMsg := by injection hcontra
    exact absurd this (by decide)

theorem clean_json_string_error_iff (s : String) :
    clean_json_string s = Except.error noJsonMsg ↔
      (findIdx (stripCtl s.data) '\x7b' = none ∨
       rfindIdx (stripCtl s.data) '\x7d' = none) := by
  simp only [clean_json_string]
  cases h1 : findIdx (stripCtl s.data) '\x7b' <;>
    cases h2 : rfindIdx (stripCtl s.data) '\x7d' <;> simp

theorem recoverParse_noJson_iff (s : String) :
    recoverParse s = Except.error noJsonMsg ↔
      clean_json_string s = Except.error noJsonMsg := by
  unfold recoverParse
  cases h : clean_json_string s with
  | ok c =>
    rw [show (Except.ok c : Except String String).bind json_loads =
        json_loads c from rfl]
    constructor
    · intro hl
      exact absurd hl (json_loads_ne_noJson c)
    · intro hr
      cases hr
  | error e =>
    rw [show (Except.error e : Except String String).bind json_loads =
        Except.error e from rfl]
    simp

/-- C3 (amended): the Payload Recoverer fails with `NoJsonFound` iff the
stripped text contains no `\x7b` or no `\x7d`; in particular it fails with
`NoJsonFound` on the input `"no braces here"`.  (The empty-span case of the
original claim instead yields an empty candidate string and a decoder error,
see the counterexample.) -/
theorem claim3_nojson_iff :
    (∀ s : String, recoverParse s = Except.error noJsonMsg ↔
      (findIdx (stripCtl s.data) '\x7b' = none ∨
       rfindIdx (stripCtl s.data) '\x7d' = none)) ∧
    recoverParse "no braces here" = Except.error noJsonMsg := by
  constructor
  · intro s
    rw [recoverParse_noJson_iff s]
    exact clean_json_string_error_iff s
  · rfl

/-- C3 (counterexample): on the input `"\x7d\x7b"` the span from the first
`\x7b` to the last `\x7d` is empty — so the claim's condition holds — yet the
recoverer does not fail with `NoJsonFound`: it passes the empty slice on and
fails at the JSON-parse stage instead. -/
theorem claim3_counterexample :
    spec_noJsonFound_condition "\x7d\x7b" = true ∧
    recoverParse "\x7d\x7b" = Except.error "Expecting value" ∧
    "Expecting value" ≠ noJsonMsg :=
  ⟨rfl, rfl, by decide⟩

/-! ### Claim C4: round trip on serialized single-field mappings -/

/-- C4 (amended): the Payload Recoverer is idempotent on the strict JSON
serialization of a mapping whose only key is `"email"` with a string value,
provided the value contains no two adjacent spaces (the whitespace-collapse
step folds longer space runs, see the counterexample). -/
theorem claim4_roundtrip (v : String)
    (hv : noTwoAdj (fun c => c == ' ') v.data = true) :
    recoverParse (json_dumps_email v) =
      Except.ok (JVal.jobj [("email", JVal.jstr v)]) :=
  recoverParse_dumps v hv

/-- C4 (witness): the round trip at the value `"a b"`. -/
theorem claim4_roundtrip_witness :
    noTwoAdj (fun c => c == ' ') "a b".data = true ∧
    recoverParse (json_dumps_email "a b") =
      Except.ok (JVal.jobj [("email", JVal.jstr "a b")]) :=
  ⟨by decide, claim4_roundtrip "a b" (by decide)⟩

/-- C4 (counterexample): at the value `"a  b"` (two adjacent spaces) the
recoverer does not parse the serialization back to the original mapping —
the whitespace-collapse step of `clean_json_string` folds the two spaces
into one. -/
theorem claim4_counterexample :
    recoverParse (json_dumps_email "a  b") ≠
      Except.ok (JVal.jobj [("email", JVal.jstr "a  b")]) := by
  intro h
  have h2 : recoverParse (json_dumps_email "a  b") =
      Except.ok (JVal.jobj [("email", JVal.jstr "a b")]) := rfl
  rw [h2] at h
  simp at h

/-! ### Claim C5: the resize arithmetic -/

/-- C5: at an input image of dimensions 2156 × 1000 the binary64 arithmetic
the source actually performs truncates the longest side to 1599 — not the
exactly-1600 the claim states — while the same expressions in exact real
arithmetic do give 1600 (and 742 for the shorter side in both readings). -/
theorem claim5_resize_fp_divergence :
    resize_dims_fp 2156 1000 = (1599, 742) ∧
    resize_dims 2156 1000 = (1600, 742) := by
  constructor
  · decide
  · decide

/-! ### Claim C9: the result formatter -/

/-- C9: the Result Formatter maps the payload with an empty email to the
fixed nothing-found message, and the payload with email `x@y.com` to the
display string `Email: x@y.com`. -/
theorem claim9_formatter :
    display_message [("email", JVal.jstr "")] =
      some "No information found in the business card image." ∧
    display_message [("email", JVal.jstr "x@y.com")] = some "Email: x@y.com" :=
  ⟨rfl, rfl⟩

/-- C1 (witness): a backend that raises
`ThrottlingException: Rate exceeded` on every attempt. -/
theorem claim1_witness :
    (extract_business_card_info
      (fun _ => BackendResp.exn "ThrottlingException: Rate exceeded")
      "Nova Lite" 3).calls = 3 ∧
    (extract_business_card_info
      (fun _ => BackendResp.exn "ThrottlingException: Rate exceeded")
      "Nova Lite" 3).res.status = "error" ∧
    (extract_business_card_info
      (fun _ => BackendResp.exn "ThrottlingException: Rate exceeded")
      "Nova Lite" 3).res.message =
      some ("API error: " ++ "ThrottlingException: Rate exceeded") ∧
    (extract_business_card_info
      (fun _ => BackendResp.exn "ThrottlingException: Rate exceeded")
      "Nova Lite" 3).res.raw_response = none :=
  claim1_throttle_three_calls
    (fun _ => BackendResp.exn "ThrottlingException: Rate exceeded")
    (fun _ => "ThrottlingException: Rate exceeded") "Nova Lite"
    (by decide) (fun _ => rfl) (fun _ => rfl)

/-- C2 (witness): replies that fail recovery twice then parse, and replies
that never parse. -/
theorem claim2_witness :
    ((extract_business_card_info
      (fun i => BackendResp.reply (if i < 2 then "no json"
        else "\x7b\"email\": \"a@b.com\"\x7d")) "Nova Lite" 3).calls = 3 ∧
     (extract_business_card_info
      (fun i => BackendResp.reply (if i < 2 then "no json"
        else "\x7b\"email\": \"a@b.com\"\x7d")) "Nova Lite" 3).res.status =
       "success") ∧
    ((extract_business_card_info
      (fun _ => BackendResp.reply "no json") "Nova Lite" 3).calls = 3 ∧
     (extract_business_card_info
      (fun _ => BackendResp.reply "no json") "Nova Lite" 3).res.status = "error" ∧
     (extract_business_card_info
      (fun _ => BackendResp.reply "no json") "Nova Lite" 3).res.message =
       some ("Failed to parse response as JSON: " ++
         "No valid JSON object found in string") ∧
     (extract_business_card_info
      (fun _ => BackendResp.reply "no json") "Nova Lite" 3).res.raw_response =
       some "no json") :=
  claim2_parse_retry_budget "Nova Lite" (by decide)
    (fun i => if i < 2 then "no json" else "\x7b\"email\": \"a@b.com\"\x7d")
    (fun _ => "no json")
    [("email", JVal.jstr "a@b.com")]
    "No valid JSON object found in string" "No valid JSON object found in string"
    "No valid JSON object found in string" "No valid JSON object found in string"
    "No valid JSON object found in string"
    rfl rfl rfl rfl rfl rfl

/-- C6 (witness): the model name `GPT-4` is not in the catalog. -/
theorem claim6_witness :
    (extract_business_card_info (fun _ => BackendResp.reply "x") "GPT-4" 3).calls = 0 ∧
    (extract_business_card_info (fun _ => BackendResp.reply "x") "GPT-4" 3).res.status =
      "error" ∧
    (extract_business_card_info (fun _ => BackendResp.reply "x") "GPT-4" 3).res.message =
      some ("Unknown model: " ++ "GPT-4") ∧
    (extract_business_card_info (fun _ => BackendResp.reply "x") "GPT-4" 3).exit =
      ExitTag.unknownModelExit ∧
    (extract_business_card_info (fun _ => BackendResp.reply "x") "GPT-4" 3).res.data =
      none ∧
    (extract_business_card_info (fun _ => BackendResp.reply "x") "GPT-4" 3).res.raw_response =
      none :=
  claim6_unknown_model_short_circuits (fun _ => BackendResp.reply "x") "GPT-4" 3
    (by decide)

/-- C8 (witness): a reply whose JSON object has an unrecognized field
`name` and no `email`. -/
theorem claim8_witness :
    (∃ v, pyGet [("name", JVal.jstr "Bob"), ("email", JVal.jstr "")] "email" =
      some v) ∧
    ∃ fs, recoverParse "\x7b\"name\": \"Bob\"\x7d" =
        Except.ok (JVal.jobj fs) ∧
      (pyGet fs "email" = none →
        pyGet [("name", JVal.jstr "Bob"), ("email", JVal.jstr "")] "email" =
          some (JVal.jstr "")) ∧
      (∀ k v, pyGet fs k = some v → k ≠ "email" →
        pyGet [("name", JVal.jstr "Bob"), ("email", JVal.jstr "")] k = some v) :=
  claim8_payload_invariant
    (fun _ => BackendResp.reply "\x7b\"name\": \"Bob\"\x7d") "Nova Lite" 3
    [("name", JVal.jstr "Bob"), ("email", JVal.jstr "")]
    "\x7b\"name\": \"Bob\"\x7d" rfl rfl rfl

/-- C10 (witness): a zero retry budget with a known model reaches the
generic exit with zero calls. -/
theorem claim10_witness :
    ((extract_business_card_info (fun _ => BackendResp.exn "x") "Nova Lite" 0).exit =
        ExitTag.genericExit ↔ (0 : Nat) = 0) ∧
    ((0 : Nat) = 0 →
      (extract_business_card_info (fun _ => BackendResp.exn "x") "Nova Lite" 0).calls = 0 ∧
      (extract_business_card_info (fun _ => BackendResp.exn "x") "Nova Lite" 0).res.message =
        some ("Failed after " ++ toString (0 : Nat) ++ " retries")) ∧
    ((0 : Nat) < 0 →
      (extract_business_card_info (fun _ => BackendResp.exn "x") "Nova Lite" 0).exit =
        ExitTag.successExit ∨
      (extract_business_card_info (fun _ => BackendResp.exn "x") "Nova Lite" 0).exit =
        ExitTag.parseFailExit ∨
      (extract_business_card_info (fun _ => BackendResp.exn "x") "Nova Lite" 0).exit =
        ExitTag.apiErrorExit) :=
  claim10_generic_exit_iff (fun _ => BackendResp.exn "x") "Nova Lite" 0 (by decide)
